import Mathlib

/-!
Shallow embedding of the two visualization tools of this repository:
the Hopf-fibration tool (src/unnamed/part_000) and the stereographic
projection tool (src/stereographic/main.js).  Real-valued JavaScript
arithmetic is modelled over the real numbers; DOM/Three.js state is
modelled as explicit state records, and event handlers as functions on
those records.
-/

noncomputable section

open scoped Classical

/-- A 3D vector, mirroring THREE.Vector3. -/
@[ext]
structure Vec3 where
  x : ℝ
  y : ℝ
  z : ℝ

/-- Euclidean distance, mirroring THREE.Vector3.distanceTo. -/
def dist3 (a b : Vec3) : ℝ :=
  Real.sqrt ((a.x - b.x) ^ 2 + (a.y - b.y) ^ 2 + (a.z - b.z) ^ 2)

/-- JavaScript Math.atan2(y, x), modelled as the argument of the complex
number x + y i (same principal range (-pi, pi], atan2(0,0) = 0). -/
def atan2 (y x : ℝ) : ℝ := Complex.arg ⟨x, y⟩

/-- THREE.Vector3.normalize: divide by the length, or by 1 when the
length is 0. -/
def normalize3 (v : Vec3) : Vec3 :=
  let len := Real.sqrt (v.x ^ 2 + v.y ^ 2 + v.z ^ 2)
  let len := if len = 0 then 1 else len
  ⟨v.x / len, v.y / len, v.z / len⟩

/-! ## Hopf tool: fiber generator (src/unnamed/part_000, getHopfFiberPoints) -/

/-- theta = Math.acos(n.z) in getHopfFiberPoints. -/
def fiberTheta (n : Vec3) : ℝ := Real.arccos n.z

/-- phi = Math.atan2(n.y, n.x) in getHopfFiberPoints. -/
def fiberPhi (n : Vec3) : ℝ := atan2 n.y n.x

/-- x4 = cos(theta/2) * cos(t). -/
def fiberX4 (n : Vec3) (t : ℝ) : ℝ := Real.cos (fiberTheta n / 2) * Real.cos t

/-- y4 = cos(theta/2) * sin(t). -/
def fiberY4 (n : Vec3) (t : ℝ) : ℝ := Real.cos (fiberTheta n / 2) * Real.sin t

/-- z4 = sin(theta/2) * cos(t + phi). -/
def fiberZ4 (n : Vec3) (t : ℝ) : ℝ := Real.sin (fiberTheta n / 2) * Real.cos (t + fiberPhi n)

/-- w4 = sin(theta/2) * sin(t + phi). -/
def fiberW4 (n : Vec3) (t : ℝ) : ℝ := Real.sin (fiberTheta n / 2) * Real.sin (t + fiberPhi n)

/-- d = Math.max(1 - w4, 0.0001), the clamped stereographic divisor. -/
def fiberDivisor (n : Vec3) (t : ℝ) : ℝ := max (1 - fiberW4 n t) 0.0001

/-- The 3D point pushed for parameter t: (x4/d, y4/d, z4/d). -/
def fiberPoint (n : Vec3) (t : ℝ) : Vec3 :=
  ⟨fiberX4 n t / fiberDivisor n t, fiberY4 n t / fiberDivisor n t, fiberZ4 n t / fiberDivisor n t⟩

/-- The loop `for(let t=0; t<=2*pi; t+=h) points.push(...)`, with explicit
fuel bounding the number of iterations (the caller supplies enough fuel). -/
def fiberLoop (n : Vec3) (h : ℝ) : ℕ → ℝ → List Vec3
  | 0, _ => []
  | fuel + 1, t =>
      if t ≤ 2 * Real.pi then fiberPoint n t :: fiberLoop n h fuel (t + h) else []

/-- getHopfFiberPoints(n, segments): iterate t from 0 by 2*pi/segments
while t <= 2*pi, collecting the projected fiber points.  The source's
default argument is segments = 1000. -/
def getHopfFiberPoints (n : Vec3) (segments : ℕ) : List Vec3 :=
  fiberLoop n (2 * Real.pi / segments) (segments + 2) 0

/-! ## Hopf tool: colors, artifacts, state -/

/-- The fixed fiber color palette of the Hopf tool. -/
def fiberColors : List ℕ :=
  [0xff0000, 0xff7f00, 0xffff00, 0x00ff00, 0x00ffff, 0x0000ff,
   0x7f00ff, 0xff00ff, 0xffcc00, 0x00ccff, 0xff5555, 0x55ff55]

/-- fiberColors[i % fiberColors.length], the color used at cycle index i. -/
def colorAt (i : ℕ) : ℕ := fiberColors.getD (i % fiberColors.length) 0

/-- A drawn fiber line: the generated polyline and its color. -/
structure FiberLine where
  pts : List Vec3
  color : ℕ

/-- createHopfFiber(n, color, group): generate the fiber points with the
default segments = 1000 and add the colored line to the group. -/
def createHopfFiber (n : Vec3) (color : ℕ) : FiberLine :=
  ⟨getHopfFiberPoints n 1000, color⟩

/-- State of the Hopf tool: the three mode checkboxes, the synchronized
internal flags, the freeze flag, the color-cycle index, and the four
artifact groups. -/
structure HopfState where
  pointToggle : Bool
  longitudeToggle : Bool
  latitudeToggle : Bool
  selectionMode : Bool
  longitudeMode : Bool
  latitudeMode : Bool
  holdScene : Bool
  fiberIndex : ℕ
  markers : List Vec3
  fibers : List FiberLine
  torus : List FiberLine
  sphereLines : List (List Vec3)

/-- Which of the three mode checkboxes an event concerns. -/
inductive ModeToggle
  | point
  | longitude
  | latitude

/-- clearPreviousSelections(): clear the four artifact groups. -/
def clearPreviousSelections (s : HopfState) : HopfState :=
  { s with markers := [], fibers := [], torus := [], sphereLines := [] }

/-- The Hopf tool's Reset button handler: clear the scene, uncheck all
toggles, reset the internal flags and fiberIndex, and unfreeze. -/
def hopfReset (s : HopfState) : HopfState :=
  let s := clearPreviousSelections s
  let s := { s with pointToggle := false, longitudeToggle := false, latitudeToggle := false }
  let s := { s with selectionMode := false, longitudeMode := false, latitudeMode := false,
                    fiberIndex := 0 }
  { s with holdScene := false }

/-- Set one of the three Hopf-tool checkboxes. -/
def setHopfToggle (s : HopfState) (t : ModeToggle) (v : Bool) : HopfState :=
  match t with
  | ModeToggle.point => { s with pointToggle := v }
  | ModeToggle.longitude => { s with longitudeToggle := v }
  | ModeToggle.latitude => { s with latitudeToggle := v }

/-- Uncheck the two checkboxes other than t. -/
def uncheckHopfOthers (s : HopfState) (t : ModeToggle) : HopfState :=
  match t with
  | ModeToggle.point => { s with longitudeToggle := false, latitudeToggle := false }
  | ModeToggle.longitude => { s with pointToggle := false, latitudeToggle := false }
  | ModeToggle.latitude => { s with pointToggle := false, longitudeToggle := false }

/-- The Hopf tool's change handler for a mode checkbox: the checkbox has
just been set to v; if it is now checked, uncheck the others; always
clear the artifact groups; then synchronize the internal flags with the
checkbox states. -/
def hopfToggleChange (s : HopfState) (t : ModeToggle) (v : Bool) : HopfState :=
  let s := setHopfToggle s t v
  let s := if v then uncheckHopfOthers s t else s
  let s := clearPreviousSelections s
  { s with selectionMode := s.pointToggle, longitudeMode := s.longitudeToggle,
           latitudeMode := s.latitudeToggle }

/-- A for-loop running its body for i = 0 .. n-1 over a state. -/
def iterLoop {σ : Type} (f : ℕ → σ → σ) (init : σ) : ℕ → σ
  | 0 => init
  | n + 1 => f n (iterLoop f init n)

/-- Loop state of the Hopf tool's longitude/latitude branches: the path
points, the fibers added to torusGroup, and the running fiberIndex. -/
structure PathLoopState where
  path : List Vec3
  torus : List FiberLine
  idx : ℕ

/-- The i-th longitude path point: theta = (i/200)*pi*2, point =
(sin theta * cos phi, sin theta * sin phi, cos theta). -/
def longPathPoint (phi : ℝ) (i : ℕ) : Vec3 :=
  ⟨Real.sin ((i : ℝ) / 200 * Real.pi * 2) * Real.cos phi,
   Real.sin ((i : ℝ) / 200 * Real.pi * 2) * Real.sin phi,
   Real.cos ((i : ℝ) / 200 * Real.pi * 2)⟩

/-- One iteration of the longitude branch loop: push the path point and,
when i <= 100, create a fiber over it with the current cycle color and
advance fiberIndex. -/
def hopfLongStep (phi : ℝ) (i : ℕ) (st : PathLoopState) : PathLoopState :=
  let p := longPathPoint phi i
  let st := { st with path := st.path ++ [p] }
  if i ≤ 100 then
    { st with torus := st.torus ++ [createHopfFiber p (colorAt st.idx)], idx := st.idx + 1 }
  else st

/-- The longitude branch loop, i = 0 .. 200. -/
def hopfLongBranch (phi : ℝ) (idx0 : ℕ) : PathLoopState :=
  iterLoop (hopfLongStep phi) ⟨[], [], idx0⟩ 201

/-- The i-th latitude path point: t = (i/200)*2*pi, point =
(r cos t, r sin t, z). -/
def latPathPoint (zc r : ℝ) (i : ℕ) : Vec3 :=
  ⟨r * Real.cos ((i : ℝ) / 200 * (2 * Real.pi)),
   r * Real.sin ((i : ℝ) / 200 * (2 * Real.pi)), zc⟩

/-- One iteration of the latitude branch loop: push the path point and
create a fiber over it, advancing fiberIndex every time. -/
def hopfLatStep (zc r : ℝ) (i : ℕ) (st : PathLoopState) : PathLoopState :=
  let p := latPathPoint zc r i
  { st with path := st.path ++ [p],
            torus := st.torus ++ [createHopfFiber p (colorAt st.idx)],
            idx := st.idx + 1 }

/-- The latitude branch loop, i = 0 .. 200. -/
def hopfLatBranch (zc r : ℝ) (idx0 : ℕ) : PathLoopState :=
  iterLoop (hopfLatStep zc r) ⟨[], [], idx0⟩ 201

/-- The Hopf tool's window click handler.  onCanvas is whether the event
target is the renderer canvas; hit is the raycast intersection point, if
any.  When not frozen and a point is hit, the normalized point drives the
selection / longitude / latitude branches. -/
def hopfClick (s : HopfState) (onCanvas : Bool) (hit : Option Vec3) : HopfState :=
  if s.holdScene then s
  else if !onCanvas then s
  else
    match hit with
    | none => s
    | some q =>
        let point := normalize3 q
        let s1 :=
          if s.selectionMode then
            { s with markers := s.markers ++ [point],
                     fibers := s.fibers ++ [createHopfFiber point (colorAt s.fiberIndex)],
                     fiberIndex := s.fiberIndex + 1 }
          else s
        let s2 :=
          if s1.longitudeMode then
            let res := hopfLongBranch (atan2 point.y point.x) s1.fiberIndex
            { s1 with torus := res.torus, fiberIndex := res.idx, sphereLines := [res.path] }
          else s1
        if s2.latitudeMode then
          let res := hopfLatBranch point.z (Real.sqrt (1 - point.z * point.z)) s2.fiberIndex
          { s2 with torus := res.torus, fiberIndex := res.idx, sphereLines := [res.path] }
        else s2

/-! ## Stereographic tool (src/stereographic/main.js) -/

/-- The sphere radius of the stereographic tool. -/
def radius : ℝ := 1

/-- The sphere center: the sphere's base sits on the grid, so the center
is at (0, radius, 0). -/
def spherePos : Vec3 := ⟨0, radius, 0⟩

/-- The projection source at the top of the sphere, (0, 2*radius, 0). -/
def northPolePos : Vec3 := ⟨0, radius * 2, 0⟩

/-- Selection color on the sphere (hot fuchsia). -/
def SPHERE_COLOR : ℕ := 0xFF00FF

/-- Projection color on the grid (neon lime). -/
def PLANE_COLOR : ℕ := 0x32CD32

/-- projectPoint(p): intersect the ray from the north pole through p with
the plane y = 0. -/
def projectPoint (p : Vec3) : Vec3 :=
  let dirx := p.x - northPolePos.x
  let diry := p.y - northPolePos.y
  let dirz := p.z - northPolePos.z
  let t := -northPolePos.y / diry
  ⟨northPolePos.x + dirx * t, 0, northPolePos.z + dirz * t⟩

/-- A drawn artifact of the stereographic tool: a polyline or a small
sphere marker, each with a color. -/
inductive Artifact
  | line (pts : List Vec3) (color : ℕ)
  | marker (pos : Vec3) (color : ℕ)

/-- State of the stereographic tool: the three mode checkboxes, the
freeze flag, the warning visibility, and the contents of projectGroup. -/
structure StereoState where
  togglePoint : Bool
  toggleLongitude : Bool
  toggleLatitude : Bool
  isFrozen : Bool
  warning : Bool
  group : List Artifact

/-- resetExhibition(): empty projectGroup, hide the warning, and uncheck
the three mode toggles.  The Reset button handler calls this (and then
only animates the button's opacity).  Note that it does not touch
isFrozen. -/
def resetExhibition (s : StereoState) : StereoState :=
  { s with group := [], warning := false,
           togglePoint := false, toggleLongitude := false, toggleLatitude := false }

/-- Set one of the three stereographic-tool checkboxes. -/
def setStereoToggle (s : StereoState) (t : ModeToggle) (v : Bool) : StereoState :=
  match t with
  | ModeToggle.point => { s with togglePoint := v }
  | ModeToggle.longitude => { s with toggleLongitude := v }
  | ModeToggle.latitude => { s with toggleLatitude := v }

/-- Uncheck the two checkboxes other than t. -/
def uncheckStereoOthers (s : StereoState) (t : ModeToggle) : StereoState :=
  match t with
  | ModeToggle.point => { s with toggleLongitude := false, toggleLatitude := false }
  | ModeToggle.longitude => { s with togglePoint := false, toggleLatitude := false }
  | ModeToggle.latitude => { s with togglePoint := false, toggleLongitude := false }

/-- The stereographic tool's change handler for a mode checkbox: the
checkbox has just been set to v; if it is now checked, uncheck the
others, clear projectGroup and hide the warning. -/
def stereoToggleChange (s : StereoState) (t : ModeToggle) (v : Bool) : StereoState :=
  let s := setStereoToggle s t v
  if v then
    let s := uncheckStereoOthers s t
    { s with group := [], warning := false }
  else s

/-- Loop state of the stereographic latitude/longitude branches: the
sphere-side points, the plane-side points, and the arguments on which
projectPoint has been invoked. -/
structure ProjLoopState where
  sphere : List Vec3
  plane : List Vec3
  calls : List Vec3

/-- The i-th latitude sample: angle = (i/128)*pi*2, point =
(r cos angle, p.y, r sin angle). -/
def stereoLatSample (py r : ℝ) (i : ℕ) : Vec3 :=
  ⟨r * Real.cos ((i : ℝ) / 128 * Real.pi * 2), py,
   r * Real.sin ((i : ℝ) / 128 * Real.pi * 2)⟩

/-- One iteration of the stereographic latitude loop: push the sphere
point and its projection. -/
def stereoLatStep (py r : ℝ) (i : ℕ) (st : ProjLoopState) : ProjLoopState :=
  let sp := stereoLatSample py r i
  { sphere := st.sphere ++ [sp], plane := st.plane ++ [projectPoint sp],
    calls := st.calls ++ [sp] }

/-- The stereographic latitude loop, i = 0 .. 128. -/
def stereoLatLoop (py r : ℝ) : ProjLoopState :=
  iterLoop (stereoLatStep py r) ⟨[], [], []⟩ 129

/-- The i-th longitude sample: phi = (i/128)*pi*2, a vertical circle
through the poles at azimuth `angle` (radius 1, lifted by spherePos.y). -/
def stereoLongSample (angle : ℝ) (i : ℕ) : Vec3 :=
  ⟨radius * Real.cos ((i : ℝ) / 128 * Real.pi * 2) * Real.cos angle,
   radius * Real.sin ((i : ℝ) / 128 * Real.pi * 2) + spherePos.y,
   radius * Real.cos ((i : ℝ) / 128 * Real.pi * 2) * Real.sin angle⟩

/-- One iteration of the stereographic longitude loop: push the sphere
point always; project it only when it is farther than 0.05 from the
north pole. -/
def stereoLongStep (angle : ℝ) (i : ℕ) (st : ProjLoopState) : ProjLoopState :=
  let sp := stereoLongSample angle i
  let st := { st with sphere := st.sphere ++ [sp] }
  if 0.05 < dist3 sp northPolePos then
    { st with plane := st.plane ++ [projectPoint sp], calls := st.calls ++ [sp] }
  else st

/-- The stereographic longitude loop, i = 0 .. 128. -/
def stereoLongLoop (angle : ℝ) : ProjLoopState :=
  iterLoop (stereoLongStep angle) ⟨[], [], []⟩ 129

/-- The stereographic tool's window click handler.  Returns the new state
together with the list of arguments on which projectPoint was invoked. -/
def stereoClick (s : StereoState) (onCanvas : Bool) (hit : Option Vec3) :
    StereoState × List Vec3 :=
  if s.isFrozen then (s, [])
  else if !onCanvas then (s, [])
  else
    match hit with
    | none => (s, [])
    | some p =>
        if dist3 p northPolePos < 0.08 then ({ s with warning := true }, [])
        else
          let s0 := { s with warning := false, group := [] }
          let pointPart : List Artifact × List Vec3 :=
            if s.togglePoint then
              let proj := projectPoint p
              ([Artifact.line [northPolePos, proj] 0x444444,
                Artifact.marker p SPHERE_COLOR,
                Artifact.marker proj PLANE_COLOR], [p])
            else ([], [])
          let latPart : List Artifact × List Vec3 :=
            if s.toggleLatitude then
              let localY := p.y - spherePos.y
              let r := Real.sqrt (max 0 (radius * radius - localY * localY))
              let res := stereoLatLoop p.y r
              ([Artifact.line res.sphere SPHERE_COLOR,
                Artifact.line res.plane PLANE_COLOR], res.calls)
            else ([], [])
          let longPart : List Artifact × List Vec3 :=
            if s.toggleLongitude then
              let res := stereoLongLoop (atan2 p.z p.x)
              let planeLine := if 1 < res.plane.length then [Artifact.line res.plane PLANE_COLOR] else []
              ([Artifact.line res.sphere SPHERE_COLOR] ++ planeLine, res.calls)
            else ([], [])
          ({ s0 with group := pointPart.1 ++ latPart.1 ++ longPart.1 },
           pointPart.2 ++ latPart.2 ++ longPart.2)

/-- The number of true values among three booleans, to state mode mutual
exclusivity. -/
def countTrue (a b c : Bool) : ℕ :=
  (cond a 1 0) + (cond b 1 0) + (cond c 1 0)

/-! ## Lemmas and claim theorems -/

lemma two_pi_div_pos (N : ℕ) (hN : 0 < N) : 0 < 2 * Real.pi / N := by
  have : (0 : ℝ) < N := by exact_mod_cast hN
  positivity

lemma fiberLoop_run (n : Vec3) (N : ℕ) (hN : 0 < N) :
    ∀ m k : ℕ, k + m = N + 1 →
      fiberLoop n (2 * Real.pi / N) (m + 1) (k * (2 * Real.pi / N)) =
        (List.range m).map (fun j => fiberPoint n ((k + j : ℕ) * (2 * Real.pi / N))) := by
  intro m
  induction m with
  | zero =>
      intro k hk
      have hNpos : (0 : ℝ) < (N : ℝ) := by exact_mod_cast hN
      have hstep : 0 < 2 * Real.pi / N := two_pi_div_pos N hN
      have hkval : k = N + 1 := by omega
      have h2pi : (N : ℝ) * (2 * Real.pi / N) = 2 * Real.pi := by field_simp
      have hgt : ¬ ((k : ℝ) * (2 * Real.pi / N) ≤ 2 * Real.pi) := by
        subst hkval
        push_neg
        push_cast
        nlinarith [hstep, h2pi]
      simp [fiberLoop, hgt]
  | succ m ih =>
      intro k hk
      have hNpos : (0 : ℝ) < (N : ℝ) := by exact_mod_cast hN
      have hkN : k ≤ N := by omega
      have h2pi : (N : ℝ) * (2 * Real.pi / N) = 2 * Real.pi := by field_simp
      have hle : (k : ℝ) * (2 * Real.pi / N) ≤ 2 * Real.pi := by
        have hkr : (k : ℝ) ≤ (N : ℝ) := by exact_mod_cast hkN
        nlinarith [two_pi_div_pos N hN]
      have hnext : (k : ℝ) * (2 * Real.pi / N) + 2 * Real.pi / N
          = ((k + 1 : ℕ) : ℝ) * (2 * Real.pi / N) := by push_cast; ring
      have ihk := ih (k + 1) (by omega)
      show (if (k : ℝ) * (2 * Real.pi / N) ≤ 2 * Real.pi then
          fiberPoint n ((k : ℝ) * (2 * Real.pi / N)) ::
            fiberLoop n (2 * Real.pi / N) (m + 1) ((k : ℝ) * (2 * Real.pi / N) + 2 * Real.pi / N)
        else []) = _
  -- continue below
      rw [if_pos hle, hnext, ihk, List.range_succ_eq_map, List.map_cons, List.map_map]
      refine congrArg₂ List.cons (by norm_num) ?_
      refine List.map_congr_left ?_
      intro j hj
      have : ((k + (j + 1) : ℕ) : ℝ) = ((k + 1 + j : ℕ) : ℝ) := by push_cast; ring
      simp only [Function.comp]
      rw [show Nat.succ j = j + 1 from rfl]
      rw [show (k + (j + 1) : ℕ) = (k + 1 + j : ℕ) by omega]

/-- Characterization of getHopfFiberPoints over the reals: the parameter
steps through k * (2*pi/segments) for k = 0 .. segments. -/
lemma getHopfFiberPoints_eq (n : Vec3) (N : ℕ) (hN : 0 < N) :
    getHopfFiberPoints n N =
      (List.range (N + 1)).map (fun k => fiberPoint n ((k : ℕ) * (2 * Real.pi / N))) := by
  have h := fiberLoop_run n N hN (N + 1) 0 (by omega)
  have h0 : ((0 : ℕ) : ℝ) * (2 * Real.pi / N) = 0 := by norm_num
  unfold getHopfFiberPoints
  rw [show N + 2 = (N + 1) + 1 from rfl, show (0 : ℝ) = ((0 : ℕ) : ℝ) * (2 * Real.pi / N) from h0.symm, h]
  simp

lemma fiberLoop_mem (n : Vec3) (h : ℝ) :
    ∀ (fuel : ℕ) (t0 : ℝ) (pt : Vec3), pt ∈ fiberLoop n h fuel t0 → ∃ t : ℝ, pt = fiberPoint n t := by
  intro fuel
  induction fuel with
  | zero => intro t0 pt hpt; simp [fiberLoop] at hpt
  | succ fuel ih =>
      intro t0 pt hpt
      by_cases hc : t0 ≤ 2 * Real.pi
      · simp only [fiberLoop, if_pos hc] at hpt
        rcases List.mem_cons.mp hpt with h1 | h2
        · exact ⟨t0, h1⟩
        · exact ih _ _ h2
      · simp [fiberLoop, hc] at hpt

lemma fiberDivisor_ge (n : Vec3) (t : ℝ) : 0.0001 ≤ fiberDivisor n t :=
  le_max_right _ _

lemma hopfLong_spec (phi : ℝ) (idx0 : ℕ) :
    ∀ n : ℕ,
      (iterLoop (hopfLongStep phi) ⟨[], [], idx0⟩ n).path = (List.range n).map (longPathPoint phi) ∧
      (iterLoop (hopfLongStep phi) ⟨[], [], idx0⟩ n).torus =
        (List.range (min n 101)).map
          (fun i => createHopfFiber (longPathPoint phi i) (colorAt (idx0 + i))) ∧
      (iterLoop (hopfLongStep phi) ⟨[], [], idx0⟩ n).idx = idx0 + min n 101 := by
  intro n
  induction n with
  | zero => simp [iterLoop]
  | succ n ih =>
      obtain ⟨hp, ht, hi⟩ := ih
      by_cases hn : n ≤ 100
      · have h1 : min n 101 = n := by omega
        have h2 : min (n + 1) 101 = n + 1 := by omega
        rw [h1] at ht hi
        refine ⟨?_, ?_, ?_⟩
        · simp [iterLoop, hopfLongStep, hn, hp, List.range_succ]
        · simp [iterLoop, hopfLongStep, hn, ht, hi, h2, List.range_succ]
        · simp [iterLoop, hopfLongStep, hn, hi, h2]
          omega
      · have h1 : min n 101 = 101 := by omega
        have h2 : min (n + 1) 101 = 101 := by omega
        rw [h1] at ht hi
        refine ⟨?_, ?_, ?_⟩
        · simp [iterLoop, hopfLongStep, hn, hp, List.range_succ]
        · simp [iterLoop, hopfLongStep, hn, ht, h2]
        · simp [iterLoop, hopfLongStep, hn, hi, h2]

lemma hopfLat_spec (zc r : ℝ) (idx0 : ℕ) :
    ∀ n : ℕ,
      (iterLoop (hopfLatStep zc r) ⟨[], [], idx0⟩ n).path = (List.range n).map (latPathPoint zc r) ∧
      (iterLoop (hopfLatStep zc r) ⟨[], [], idx0⟩ n).torus =
        (List.range n).map (fun i => createHopfFiber (latPathPoint zc r i) (colorAt (idx0 + i))) ∧
      (iterLoop (hopfLatStep zc r) ⟨[], [], idx0⟩ n).idx = idx0 + n := by
  intro n
  induction n with
  | zero => simp [iterLoop]
  | succ n ih =>
      obtain ⟨hp, ht, hi⟩ := ih
      refine ⟨?_, ?_, ?_⟩
      · simp [iterLoop, hopfLatStep, hp, List.range_succ]
      · simp [iterLoop, hopfLatStep, ht, hi, List.range_succ]
      · simp [iterLoop, hopfLatStep, hi]
        omega

lemma stereoLat_spec (py r : ℝ) :
    ∀ n : ℕ,
      (iterLoop (stereoLatStep py r) ⟨[], [], []⟩ n).sphere =
        (List.range n).map (stereoLatSample py r) ∧
      (iterLoop (stereoLatStep py r) ⟨[], [], []⟩ n).plane =
        (List.range n).map (fun i => projectPoint (stereoLatSample py r i)) ∧
      (iterLoop (stereoLatStep py r) ⟨[], [], []⟩ n).calls =
        (List.range n).map (stereoLatSample py r) := by
  intro n
  induction n with
  | zero => simp [iterLoop]
  | succ n ih =>
      obtain ⟨hs, hp, hc⟩ := ih
      refine ⟨?_, ?_, ?_⟩
      · simp [iterLoop, stereoLatStep, hs, List.range_succ]
      · simp [iterLoop, stereoLatStep, hp, List.range_succ]
      · simp [iterLoop, stereoLatStep, hc, List.range_succ]

lemma stereoLong_spec (angle : ℝ) :
    ∀ n : ℕ,
      (iterLoop (stereoLongStep angle) ⟨[], [], []⟩ n).sphere =
        (List.range n).map (stereoLongSample angle) ∧
      (iterLoop (stereoLongStep angle) ⟨[], [], []⟩ n).calls =
        ((List.range n).map (stereoLongSample angle)).filter
          (fun sp => 0.05 < dist3 sp northPolePos) ∧
      (iterLoop (stereoLongStep angle) ⟨[], [], []⟩ n).plane =
        (((List.range n).map (stereoLongSample angle)).filter
          (fun sp => 0.05 < dist3 sp northPolePos)).map projectPoint := by
  intro n
  induction n with
  | zero => simp [iterLoop]
  | succ n ih =>
      obtain ⟨hs, hc, hp⟩ := ih
      by_cases hfar : 0.05 < dist3 (stereoLongSample angle n) northPolePos
      · refine ⟨?_, ?_, ?_⟩
        · simp [iterLoop, stereoLongStep, hfar, hs, List.range_succ]
        · simp [iterLoop, stereoLongStep, hfar, hc, List.range_succ, List.filter_append]
        · simp [iterLoop, stereoLongStep, hfar, hp, List.range_succ, List.filter_append]
      · refine ⟨?_, ?_, ?_⟩
        · simp [iterLoop, stereoLongStep, hfar, hs, List.range_succ]
        · simp [iterLoop, stereoLongStep, hfar, hc, List.range_succ, List.filter_append]
        · simp [iterLoop, stereoLongStep, hfar, hp, List.range_succ, List.filter_append]

lemma head_last_map_range {α : Type} (f : ℕ → α) (n : ℕ) (hf : f 0 = f n) :
    ((List.range (n + 1)).map f).head? = ((List.range (n + 1)).map f).getLast? := by
  have h1 : ((List.range (n + 1)).map f).head? = some (f 0) := by
    rw [List.range_succ_eq_map]
    simp
  have h2 : ((List.range (n + 1)).map f).getLast? = some (f n) := by
    rw [List.range_succ, List.map_append]
    simp
  rw [h1, h2, hf]

/-- C1 counterexample: in the stereographic tool, Reset does not set the
Freeze flag back to Unfrozen.  Starting from a frozen state with a drawn
marker, invoking the Reset handler leaves isFrozen = true, so the claim
that Reset yields Freeze = Unfrozen in every state of either tool is
false. -/
theorem reset_freeze_cex :
    ((resetExhibition ⟨false, false, false, true, false,
        [Artifact.marker ⟨0, 0, 0⟩ 0]⟩).isFrozen = false) = False := by
  simp [resetExhibition]

/-- C1 amended: in the Hopf tool, Reset clears all four artifact groups,
unchecks the three toggles, resets the three internal mode flags, sets
the color-cycle index to 0 and unfreezes; in the stereographic tool,
Reset clears the artifacts, hides the warning and unchecks the three
toggles, but leaves the Freeze flag unchanged (and that tool has no
color-cycle index). -/
theorem reset_behaviour :
    (∀ s : HopfState,
        (hopfReset s).markers = [] ∧ (hopfReset s).fibers = [] ∧
        (hopfReset s).torus = [] ∧ (hopfReset s).sphereLines = [] ∧
        (hopfReset s).pointToggle = false ∧ (hopfReset s).longitudeToggle = false ∧
        (hopfReset s).latitudeToggle = false ∧ (hopfReset s).selectionMode = false ∧
        (hopfReset s).longitudeMode = false ∧ (hopfReset s).latitudeMode = false ∧
        (hopfReset s).fiberIndex = 0 ∧ (hopfReset s).holdScene = false) ∧
    (∀ s : StereoState,
        (resetExhibition s).group = [] ∧ (resetExhibition s).warning = false ∧
        (resetExhibition s).togglePoint = false ∧ (resetExhibition s).toggleLongitude = false ∧
        (resetExhibition s).toggleLatitude = false ∧
        (resetExhibition s).isFrozen = s.isFrozen) := by
  constructor
  · intro s
    simp [hopfReset, clearPreviousSelections]
  · intro s
    simp [resetExhibition]

/-- C2: for every vector n and positive segment count, getHopfFiberPoints
returns exactly segments + 1 points, the parameter t stepping through
k * (2*pi/segments) for k = 0 .. segments. -/
theorem hopf_fiber_point_count (n : Vec3) (segments : ℕ) (hs : 0 < segments) :
    (getHopfFiberPoints n segments).length = segments + 1 ∧
    getHopfFiberPoints n segments =
      (List.range (segments + 1)).map
        (fun k => fiberPoint n ((k : ℕ) * (2 * Real.pi / segments))) := by
  have h := getHopfFiberPoints_eq n segments hs
  exact ⟨by rw [h]; simp, h⟩

/-- C2 witness: at n = (0,0,1) and the default segments = 1000, the
generated fiber has 1001 points. -/
theorem hopf_fiber_point_count_witness :
    (getHopfFiberPoints ⟨0, 0, 1⟩ 1000).length = 1000 + 1 :=
  (hopf_fiber_point_count ⟨0, 0, 1⟩ 1000 (by norm_num)).1

/-- C3: every point returned by getHopfFiberPoints is fiberPoint n t for
some parameter t, i.e. (x4/d, y4/d, z4/d) with d = max(1 - w4, 0.0001);
the divisor is at least 0.0001, hence positive, so the division is
well-defined for every vector n. -/
theorem hopf_fiber_formula_safe (n : Vec3) (segments : ℕ) (pt : Vec3)
    (hpt : pt ∈ getHopfFiberPoints n segments) :
    ∃ t : ℝ, pt = fiberPoint n t ∧ 0.0001 ≤ fiberDivisor n t ∧ 0 < fiberDivisor n t := by
  obtain ⟨t, ht⟩ := fiberLoop_mem n _ _ _ pt hpt
  refine ⟨t, ht, fiberDivisor_ge n t, lt_of_lt_of_le (by norm_num) (fiberDivisor_ge n t)⟩

/-- C3 witness: the first point of the fiber over (0,0,1) with one
segment satisfies the formula with a clamped divisor. -/
theorem hopf_fiber_formula_safe_witness :
    ∃ t : ℝ, fiberPoint ⟨0, 0, 1⟩ ((0 : ℕ) * (2 * Real.pi / ((1 : ℕ) : ℝ))) = fiberPoint ⟨0, 0, 1⟩ t ∧
      0.0001 ≤ fiberDivisor ⟨0, 0, 1⟩ t ∧ 0 < fiberDivisor ⟨0, 0, 1⟩ t :=
  hopf_fiber_formula_safe ⟨0, 0, 1⟩ 1 _ (by
    rw [getHopfFiberPoints_eq ⟨0, 0, 1⟩ 1 (by norm_num)]
    exact List.mem_map.mpr ⟨0, by simp, rfl⟩)

/-- C4: in both tools, a mode-checkbox change event preserves the
invariant that at most one of the three toggles is checked, and
activating a mode (change event with the checkbox now checked) clears
all previously drawn artifacts of that tool.  The Hopf tool in fact
clears on every change event. -/
theorem mode_toggle_exclusive :
    (∀ (s : StereoState) (t : ModeToggle) (v : Bool),
        countTrue s.togglePoint s.toggleLongitude s.toggleLatitude ≤ 1 →
        countTrue (stereoToggleChange s t v).togglePoint
          (stereoToggleChange s t v).toggleLongitude
          (stereoToggleChange s t v).toggleLatitude ≤ 1) ∧
    (∀ (s : StereoState) (t : ModeToggle), (stereoToggleChange s t true).group = []) ∧
    (∀ (s : HopfState) (t : ModeToggle) (v : Bool),
        countTrue s.pointToggle s.longitudeToggle s.latitudeToggle ≤ 1 →
        countTrue (hopfToggleChange s t v).pointToggle
          (hopfToggleChange s t v).longitudeToggle
          (hopfToggleChange s t v).latitudeToggle ≤ 1) ∧
    (∀ (s : HopfState) (t : ModeToggle) (v : Bool),
        (hopfToggleChange s t v).markers = [] ∧ (hopfToggleChange s t v).fibers = [] ∧
        (hopfToggleChange s t v).torus = [] ∧ (hopfToggleChange s t v).sphereLines = []) := by
  refine ⟨?_, ?_, ?_, ?_⟩
  · intro s t v h
    obtain ⟨a, b, c, f, w, g⟩ := s
    cases t <;> cases v <;> cases a <;> cases b <;> cases c <;>
      simp_all [stereoToggleChange, setStereoToggle, uncheckStereoOthers, countTrue]
  · intro s t
    cases t <;> simp [stereoToggleChange, setStereoToggle, uncheckStereoOthers]
  · intro s t v h
    obtain ⟨a, b, c, m1, m2, m3, f, i, g1, g2, g3, g4⟩ := s
    cases t <;> cases v <;> cases a <;> cases b <;> cases c <;>
      simp_all [hopfToggleChange, setHopfToggle, uncheckHopfOthers,
        clearPreviousSelections, countTrue]
  · intro s t v
    cases t <;> cases v <;>
      simp [hopfToggleChange, setHopfToggle, uncheckHopfOthers, clearPreviousSelections]

/-- C4 witness: activating the Point mode of the stereographic tool from
a state with Longitude checked, and the Longitude mode of the Hopf tool
from a state with Point checked, leaves at most one toggle active. -/
theorem mode_toggle_exclusive_witness :
    countTrue (stereoToggleChange ⟨false, true, false, false, false, []⟩ ModeToggle.point
          true).togglePoint
        (stereoToggleChange ⟨false, true, false, false, false, []⟩ ModeToggle.point
          true).toggleLongitude
        (stereoToggleChange ⟨false, true, false, false, false, []⟩ ModeToggle.point
          true).toggleLatitude ≤ 1 ∧
    countTrue (hopfToggleChange ⟨true, false, false, true, false, false, false, 0, [], [], [], []⟩
          ModeToggle.longitude true).pointToggle
        (hopfToggleChange ⟨true, false, false, true, false, false, false, 0, [], [], [], []⟩
          ModeToggle.longitude true).longitudeToggle
        (hopfToggleChange ⟨true, false, false, true, false, false, false, 0, [], [], [], []⟩
          ModeToggle.longitude true).latitudeToggle ≤ 1 :=
  ⟨mode_toggle_exclusive.1 _ _ _ (by norm_num [countTrue]),
   mode_toggle_exclusive.2.2.1 _ _ _ (by norm_num [countTrue])⟩

/-- C5: in both tools, when the freeze flag is set, a click produces no
state change at all and invokes no projection. -/
theorem frozen_click_noop :
    (∀ (s : StereoState) (c : Bool) (h : Option Vec3),
        s.isFrozen = true → stereoClick s c h = (s, [])) ∧
    (∀ (s : HopfState) (c : Bool) (h : Option Vec3),
        s.holdScene = true → hopfClick s c h = s) := by
  constructor
  · intro s c h hf
    simp [stereoClick, hf]
  · intro s c h hf
    simp [hopfClick, hf]

/-- C5 witness: concrete frozen states of both tools absorb a click on
the canvas without any change. -/
theorem frozen_click_noop_witness :
    stereoClick ⟨true, false, false, true, false, []⟩ true (some ⟨0, 0, 0⟩) =
      (⟨true, false, false, true, false, []⟩, []) ∧
    hopfClick ⟨true, false, false, true, false, false, true, 5, [], [], [], []⟩ true
        (some ⟨1, 0, 0⟩) =
      ⟨true, false, false, true, false, false, true, 5, [], [], [], []⟩ :=
  ⟨frozen_click_noop.1 _ _ _ rfl, frozen_click_noop.2 _ _ _ rfl⟩

/-- C6: in the stereographic tool, a clicked surface point within 0.08
of the north pole makes the click handler show the warning and return:
the state changes only by the warning flag and projectPoint is invoked
on no argument. -/
theorem stereo_pole_guard (s : StereoState) (p : Vec3)
    (hf : s.isFrozen = false) (hd : dist3 p northPolePos < 0.08) :
    stereoClick s true (some p) = ({ s with warning := true }, []) := by
  simp [stereoClick, hf, hd]

/-- C6 witness: clicking exactly the north pole in an unfrozen state
triggers the warning path with no projection. -/
theorem stereo_pole_guard_witness :
    stereoClick ⟨false, false, false, false, false, []⟩ true (some northPolePos) =
      ({ (⟨false, false, false, false, false, []⟩ : StereoState) with warning := true }, []) :=
  stereo_pole_guard _ _ rfl (by
    simp only [dist3, sub_self]
    norm_num)

/-- C7: in the Hopf tool, for every accepted click, longitude mode fills
torusGroup with exactly 101 fibers (one over each sampled point with
index at most 100), while latitude mode fills it with exactly 201 fibers
(one over every sampled point); each emitted fiber uses the next color
of the cycle and advances fiberIndex by one, for totals of 101 and 201
respectively. -/
theorem hopf_click_fiber_counts (s : HopfState) (q : Vec3) (hf : s.holdScene = false) :
    (s.selectionMode = false → s.longitudeMode = true → s.latitudeMode = false →
      (hopfClick s true (some q)).torus =
        (List.range 101).map (fun i =>
          createHopfFiber (longPathPoint (atan2 (normalize3 q).y (normalize3 q).x) i)
            (colorAt (s.fiberIndex + i))) ∧
      (hopfClick s true (some q)).torus.length = 101 ∧
      (hopfClick s true (some q)).fiberIndex = s.fiberIndex + 101) ∧
    (s.selectionMode = false → s.latitudeMode = true → s.longitudeMode = false →
      (hopfClick s true (some q)).torus =
        (List.range 201).map (fun i =>
          createHopfFiber (latPathPoint (normalize3 q).z
              (Real.sqrt (1 - (normalize3 q).z * (normalize3 q).z)) i)
            (colorAt (s.fiberIndex + i))) ∧
      (hopfClick s true (some q)).torus.length = 201 ∧
      (hopfClick s true (some q)).fiberIndex = s.fiberIndex + 201) := by
  constructor
  · intro h1 h2 h3
    obtain ⟨hp, ht, hi⟩ := hopfLong_spec (atan2 (normalize3 q).y (normalize3 q).x) s.fiberIndex 201
    rw [show min 201 101 = 101 by norm_num] at ht hi
    refine ⟨?_, ?_, ?_⟩ <;>
      simp [hopfClick, hf, h1, h2, h3, hopfLongBranch, ht, hi]
  · intro h1 h2 h3
    obtain ⟨hp, ht, hi⟩ := hopfLat_spec (normalize3 q).z
      (Real.sqrt (1 - (normalize3 q).z * (normalize3 q).z)) s.fiberIndex 201
    refine ⟨?_, ?_, ?_⟩ <;>
      simp [hopfClick, hf, h1, h2, h3, hopfLatBranch, ht, hi]

/-- C7 witness: from a fresh longitude-mode state and a fresh
latitude-mode state, clicking the point (1,0,0) yields 101 and 201
fibers respectively, advancing fiberIndex accordingly. -/
theorem hopf_click_fiber_counts_witness :
    ((hopfClick ⟨false, true, false, false, true, false, false, 0, [], [], [], []⟩ true
        (some ⟨1, 0, 0⟩)).torus.length = 101 ∧
      (hopfClick ⟨false, true, false, false, true, false, false, 0, [], [], [], []⟩ true
        (some ⟨1, 0, 0⟩)).fiberIndex = 0 + 101) ∧
    ((hopfClick ⟨false, false, true, false, false, true, false, 0, [], [], [], []⟩ true
        (some ⟨1, 0, 0⟩)).torus.length = 201 ∧
      (hopfClick ⟨false, false, true, false, false, true, false, 0, [], [], [], []⟩ true
        (some ⟨1, 0, 0⟩)).fiberIndex = 0 + 201) :=
  ⟨⟨((hopf_click_fiber_counts _ _ rfl).1 rfl rfl rfl).2.1,
    ((hopf_click_fiber_counts _ _ rfl).1 rfl rfl rfl).2.2⟩,
   ⟨((hopf_click_fiber_counts _ _ rfl).2 rfl rfl rfl).2.1,
    ((hopf_click_fiber_counts _ _ rfl).2 rfl rfl rfl).2.2⟩⟩

/-- C8: all four longitude/latitude curve generators produce a closed
polyline: the first and last generated sphere-side point coincide, since
i = 0 and i = max map to the same angle. -/
theorem curves_closed (phi zc r angle py rS : ℝ) (idx : ℕ) :
    ((hopfLongBranch phi idx).path).head? = ((hopfLongBranch phi idx).path).getLast? ∧
    ((hopfLatBranch zc r idx).path).head? = ((hopfLatBranch zc r idx).path).getLast? ∧
    ((stereoLatLoop py rS).sphere).head? = ((stereoLatLoop py rS).sphere).getLast? ∧
    ((stereoLongLoop angle).sphere).head? = ((stereoLongLoop angle).sphere).getLast? := by
  have s2 : Real.sin (Real.pi * 2) = 0 := by
    rw [mul_comm]
    exact Real.sin_two_pi
  have c2 : Real.cos (Real.pi * 2) = 1 := by
    rw [mul_comm]
    exact Real.cos_two_pi
  refine ⟨?_, ?_, ?_, ?_⟩
  · rw [show (hopfLongBranch phi idx).path
        = (List.range 201).map (longPathPoint phi) from (hopfLong_spec phi idx 201).1]
    exact head_last_map_range _ 200 (by
      simp [longPathPoint, s2, c2, Real.sin_two_pi, Real.cos_two_pi])
  · rw [show (hopfLatBranch zc r idx).path
        = (List.range 201).map (latPathPoint zc r) from (hopfLat_spec zc r idx 201).1]
    exact head_last_map_range _ 200 (by
      simp [latPathPoint, s2, c2, Real.sin_two_pi, Real.cos_two_pi])
  · rw [show (stereoLatLoop py rS).sphere
        = (List.range 129).map (stereoLatSample py rS) from (stereoLat_spec py rS 129).1]
    exact head_last_map_range _ 128 (by
      simp [stereoLatSample, s2, c2, Real.sin_two_pi, Real.cos_two_pi])
  · rw [show (stereoLongLoop angle).sphere
        = (List.range 129).map (stereoLongSample angle) from (stereoLong_spec angle 129).1]
    exact head_last_map_range _ 128 (by
      simp [stereoLongSample, s2, c2, Real.sin_two_pi, Real.cos_two_pi])

/-- C9: in the stereographic longitude branch, the sphere-side polyline
contains all 129 sampled points, while projectPoint is invoked exactly
on the sampled points farther than 0.05 from the north pole, and the
plane-side polyline consists of exactly their projections; sampled
points within 0.05 of the pole are excluded. -/
theorem stereo_longitude_skip (angle : ℝ) :
    (stereoLongLoop angle).sphere = (List.range 129).map (stereoLongSample angle) ∧
    (stereoLongLoop angle).sphere.length = 129 ∧
    (stereoLongLoop angle).calls =
      (stereoLongLoop angle).sphere.filter (fun sp => 0.05 < dist3 sp northPolePos) ∧
    (stereoLongLoop angle).plane = (stereoLongLoop angle).calls.map projectPoint := by
  obtain ⟨hs, hc, hp⟩ := stereoLong_spec angle 129
  simp only [stereoLongLoop] at *
  exact ⟨hs, by rw [hs]; simp, by rw [hs, hc], by rw [hp, hc]⟩

/-- C10: in the stereographic tool, an accepted click (unfrozen, on the
canvas, hitting the sphere farther than 0.08 from the pole) clears the
previous artifacts before any mode check: the resulting group does not
depend on the previous group, and with no mode active the click leaves
an empty group. -/
theorem stereo_click_clears_first (s : StereoState) (p : Vec3)
    (hf : s.isFrozen = false) (hd : ¬ dist3 p northPolePos < 0.08) :
    ((stereoClick s true (some p)).1.group =
        (stereoClick { s with group := [] } true (some p)).1.group) ∧
    (s.togglePoint = false → s.toggleLongitude = false → s.toggleLatitude = false →
      (stereoClick s true (some p)).1.group = []) := by
  constructor
  · simp [stereoClick, hf, hd]
  · intro h1 h2 h3
    simp [stereoClick, hf, hd, h1, h2, h3]

/-- C10 witness: with no mode active and a marker already drawn,
clicking a point far from the pole erases the drawing and draws nothing
new. -/
theorem stereo_click_clears_first_witness :
    (stereoClick ⟨false, false, false, false, false, [Artifact.marker ⟨0, 0, 0⟩ 0]⟩ true
      (some ⟨0, 0, 0⟩)).1.group = [] := by
  have hd : ¬ dist3 (⟨0, 0, 0⟩ : Vec3) northPolePos < 0.08 := by
    have h4 : dist3 (⟨0, 0, 0⟩ : Vec3) northPolePos = 2 := by
      simp only [dist3, northPolePos, radius]
      rw [show ((0 : ℝ) - 0) ^ 2 + (0 - 1 * 2) ^ 2 + (0 - 0) ^ 2 = 2 ^ 2 by norm_num,
        Real.sqrt_sq (by norm_num)]
    rw [h4]
    norm_num
  exact (stereo_click_clears_first _ _ rfl hd).2 rfl rfl rfl

end
